import Mathlib

/-!
Verification of the youtube-downloader repository's core logic: the
four-step fallback download ladder of `streamlit_app.py`
(`download_video_to_memory` / `_attempt_download`), the option builders
(`create_download_options` in the web app, `make_ydl_opts` in the CLI),
and the CLI driver (`collect_urls`, `download`, `main` in
`youtube_downloader.py`).

The yt-dlp option dictionary is modelled as an association list of
string keys to a small universe of value shapes (`OptVal`).  The external
extraction primitive (`yt_dlp.YoutubeDL(...).extract_info`) is an oracle
parameter: a function from the url and the options to either an error
message (a raised exception) or an extraction result (the info dict plus
the files left in the scratch directory).  Streamlit status calls
(`st.info` / `st.warning`) are recorded as events in an output trace.
-/

/-- A postprocessor descriptor: a small string-to-string dictionary,
e.g. `[("key", "FFmpegExtractAudio"), ("preferredcodec", "mp3"), ...]`. -/
abbrev PPDict := List (String × String)

/-- Value shapes occurring in the yt-dlp option dictionaries built by this
repository: strings, integers, booleans, lists of strings, lists of
postprocessor dictionaries, and string-to-string sub-dictionaries
(`http_headers`). -/
inductive OptVal where
  | str (s : String)
  | int (n : Int)
  | bool (b : Bool)
  | strList (l : List String)
  | ppList (l : List PPDict)
  | dict (d : List (String × String))
deriving DecidableEq, Repr

/-- A yt-dlp option dictionary, as an association list. -/
abbrev Opts := List (String × OptVal)

/-- Dictionary lookup (first matching key). -/
def lookupKey (k : String) : Opts → Option OptVal
  | [] => none
  | (k0, v) :: rest => if k0 = k then some v else lookupKey k rest

/-- Python `d[k] = v`: replace the value in place if the key is present,
append the pair otherwise. -/
def setKey (k : String) (v : OptVal) : Opts → Opts
  | [] => [(k, v)]
  | (k0, v0) :: rest => if k0 = k then (k, v) :: rest else (k0, v0) :: setKey k v rest

/-- Python `d.update(kvs)`: assign every pair in order. -/
def updateKeys (o : Opts) (kvs : List (String × OptVal)) : Opts :=
  kvs.foldl (fun acc kv => setKey kv.1 kv.2 acc) o

theorem lookupKey_setKey_eq (k : String) (v : OptVal) (o : Opts) :
    lookupKey k (setKey k v o) = some v := by
  induction o with
  | nil => simp [setKey, lookupKey]
  | cons hd tl ih =>
    obtain ⟨k0, v0⟩ := hd
    by_cases h : k0 = k <;> simp [setKey, lookupKey, h, ih]

theorem lookupKey_setKey_ne (k k' : String) (v : OptVal) (o : Opts) (hne : k ≠ k') :
    lookupKey k' (setKey k v o) = lookupKey k' o := by
  induction o with
  | nil => simp [setKey, lookupKey, hne]
  | cons hd tl ih =>
    obtain ⟨k0, v0⟩ := hd
    by_cases h : k0 = k
    · subst h
      simp [setKey, lookupKey, hne]
    · simp [setKey, lookupKey, h, ih]

theorem lookupKey_updateKeys_notMem (o : Opts) (kvs : List (String × OptVal))
    (k : String) (h : ∀ kv ∈ kvs, kv.1 ≠ k) :
    lookupKey k (updateKeys o kvs) = lookupKey k o := by
  induction kvs generalizing o with
  | nil => simp [updateKeys]
  | cons hd tl ih =>
    have hhd : hd.1 ≠ k := h hd (by simp)
    have htl : ∀ kv ∈ tl, kv.1 ≠ k := fun kv hkv => h kv (by simp [hkv])
    simpa [updateKeys] using (ih (setKey hd.1 hd.2 o) htl).trans
      (lookupKey_setKey_ne hd.1 k hd.2 o hhd)

/-! ## Files and extraction results -/

/-- A file found in the scratch (temporary) directory after an extractor
run: its filename and raw byte content. -/
structure ScratchFile where
  name : String
  data : List Nat
deriving DecidableEq, Repr

/-- The slice of the extractor's info dict that this code reads:
`info.get('title', 'Unknown')`.  `title = none` models an absent key. -/
structure InfoDict where
  title : Option String
deriving DecidableEq, Repr

/-- Result of a non-raising `ydl.extract_info(url, download=True)` call:
the info dict (possibly `None`) and the files left in the scratch
directory. -/
structure ExtractResult where
  info : Option InfoDict
  files : List ScratchFile
deriving DecidableEq, Repr

/-- A record of `downloaded_files.append({...})` in `_attempt_download`. -/
structure DownloadedFile where
  name : String
  data : List Nat
  size : Nat
  title : String
  ext : String
deriving DecidableEq, Repr

/-- The fixed extension tuple of
`file.endswith(('.mp4', '.mkv', '.webm', '.mp3', '.m4a', '.wav', '.flac'))`. -/
def mediaExts : List String :=
  [".mp4", ".mkv", ".webm", ".mp3", ".m4a", ".wav", ".flac"]

/-- `s.endswith(suffix)`, computed on the character lists (equivalent to
`String.endsWith`, but reducible by the kernel). -/
def strEndsWith (s suffix : String) : Bool :=
  suffix.toList.isSuffixOf s.toList

/-- `s.startswith(pre)`, computed on the character lists. -/
def strStartsWith (s pre : String) : Bool :=
  pre.toList.isPrefixOf s.toList

/-- Python `line.strip()`: drop leading and trailing whitespace, computed
on the character list. -/
def strTrim (s : String) : String :=
  String.mk (((s.toList.dropWhile (fun c => c.isWhitespace)).reverse.dropWhile
    (fun c => c.isWhitespace)).reverse)

/-- Python `c in s` for a one-character needle: character membership. -/
def strContainsChar (s : String) (c : Char) : Bool :=
  s.toList.contains c

/-- `file.endswith(tuple)`: ends with any of the fixed media extensions. -/
def hasMediaExt (name : String) : Bool :=
  mediaExts.any (fun e => strEndsWith name e)

/-- Index of the last occurrence of a dot in a character list (first
argument is the index of the list head). -/
def lastDotIdx : List Char → Nat → Option Nat
  | [], _ => none
  | c :: rest, i =>
    match lastDotIdx rest (i + 1) with
    | some j => some j
    | none => if c = '.' then some i else none

/-- `os.path.splitext(file)[1]` for a bare filename: the suffix from the
last dot, except that a run of leading dots never starts an extension. -/
def splitextExt (s : String) : String :=
  let cs := s.toList
  let lead := (cs.takeWhile (fun c => c = '.')).length
  match lastDotIdx cs 0 with
  | some j => if lead ≤ j then String.mk (cs.drop j) else ""
  | none => ""

/-- `info.get('title', 'Unknown') if info else 'Unknown'`. -/
def titleOf (info : Option InfoDict) : String :=
  match info with
  | some i => i.title.getD "Unknown"
  | none => "Unknown"

/-- One entry of the `downloaded_files` list built by `_attempt_download`
from a scratch file: name, raw bytes, byte count, extractor title, and
filename suffix. -/
def mkDownloadedFile (info : Option InfoDict) (sf : ScratchFile) : DownloadedFile :=
  { name := sf.name
    data := sf.data
    size := sf.data.length
    title := titleOf info
    ext := splitextExt sf.name }

/-- The scratch-directory scan of `_attempt_download`: keep the files with
a recognized media extension, in listing order, and read each into a
`DownloadedFile` record. -/
def materialize (res : ExtractResult) : List DownloadedFile :=
  (res.files.filter (fun f => hasMediaExt f.name)).map (mkDownloadedFile res.info)

/-- The `(success, files, error)` triple returned by the download helpers. -/
abbrev DlResult := Bool × List DownloadedFile × Option String

/-- The external extraction primitive, as an oracle: given the url and the
options (including the scratch `outtmpl`), either raise (error message) or
return an `ExtractResult`. -/
abbrev Extractor := String → Opts → Except String ExtractResult

/-- The scratch-directory output template substituted by
`_attempt_download` (`os.path.join(temp_dir, "%(title)s [%(id)s].%(ext)s")`);
the temporary directory name itself is opaque. -/
def tempOuttmpl : String := "<temp_dir>/%(title)s [%(id)s].%(ext)s"

/-- `temp_options = options.copy(); temp_options['outtmpl'] = ...`. -/
def tempOptions (o : Opts) : Opts := setKey "outtmpl" (OptVal.str tempOuttmpl) o

/-- `_attempt_download(url, options)`: run the extractor against the
scratch directory; on success scan the scratch directory and return
`(True, downloaded_files, None)`; a raised extractor error propagates. -/
def attempt_download (extract : Extractor) (url : String) (options : Opts) :
    Except String DlResult :=
  (extract url (tempOptions options)).map (fun res => (true, materialize res, none))

/-! ## The fallback ladder of `download_video_to_memory` -/

/-- Observable events of one `download_video_to_memory` run: an invocation
of the `_attempt_download` helper (with its step number, the options it
got, and its outcome), an `st.warning` call, or an `st.info` status
notification. -/
inductive DlEvent where
  | attempt (step : Nat) (opts : Opts) (outcome : Except String DlResult)
  | warn (msg : String)
  | notify (msg : String)

/-- `f"...failed: {str(e)[:100]}..."`: the error text truncated to a
100-character prefix. -/
def truncMsg (pre e : String) : String := pre ++ e.take 100 ++ "..."

/-- `f"All download strategies failed. Last error: {str(e4)}"`. -/
def failMsg (e : String) : String :=
  "All download strategies failed. Last error: " ++ e

/-- Python `'+' in v` for each option-value shape: substring test on a
string (here a single character), element test on a list, key test on a
dict; a `TypeError` on non-iterable values. -/
def plusIn : OptVal → Except String Bool
  | OptVal.str s => Except.ok (strContainsChar s '+')
  | OptVal.strList l => Except.ok (l.contains "+")
  | OptVal.ppList _ => Except.ok false
  | OptVal.dict d => Except.ok (d.any (fun kv => kv.1 = "+"))
  | OptVal.int _ => Except.error "TypeError: argument of type int is not iterable"
  | OptVal.bool _ => Except.error "TypeError: argument of type bool is not iterable"

/-- Strategy 2 configuration: `simplified_options = options.copy()`; if a
`format` key is present, replace it by `best[height<=720]` when the
current format value contains a `+`, by `best` otherwise. -/
def step2build (o : Opts) : Except String Opts :=
  match lookupKey "format" o with
  | none => Except.ok o
  | some v =>
    (plusIn v).map (fun hasPlus =>
      setKey "format" (OptVal.str (if hasPlus then "best[height<=720]" else "best")) o)

/-- The mobile user agent of strategy 3. -/
def mobileUA : String :=
  "Mozilla/5.0 (iPhone; CPU iPhone OS 14_0 like Mac OS X) AppleWebKit/605.1.15"

/-- Strategy 3 configuration: a fresh minimal dict; only `outtmpl` is read
from the primary options (`options['outtmpl']` raises a `KeyError` when
absent, before any status output). -/
def step3build (o : Opts) : Except String Opts :=
  match lookupKey "outtmpl" o with
  | some v =>
    Except.ok
      [("outtmpl", v),
       ("format", OptVal.str "best[height<=480]/best"),
       ("user_agent", OptVal.str mobileUA),
       ("referer", OptVal.str "https://m.youtube.com/"),
       ("retries", OptVal.int 3),
       ("sleep_interval", OptVal.int 5)]
  | none => Except.error "KeyError: outtmpl"

/-- The bot-style user agent of strategy 4. -/
def botUA : String :=
  "Mozilla/5.0 (compatible; Googlebot/2.1; +http://www.google.com/bot.html)"

/-- Strategy 4 configuration: a fresh audio-only dict; only `outtmpl` is
read from the primary options. -/
def step4build (o : Opts) : Except String Opts :=
  match lookupKey "outtmpl" o with
  | some v =>
    Except.ok
      [("outtmpl", v),
       ("format", OptVal.str "bestaudio/best"),
       ("user_agent", OptVal.str botUA),
       ("sleep_interval", OptVal.int 3)]
  | none => Except.error "KeyError: outtmpl"

/-- Status message shown before strategy 2. -/
def msgStep2 : String := "🔄 Trying alternative download method..."

/-- Status message shown before strategy 3. -/
def msgStep3 : String := "🔄 Trying mobile compatibility mode..."

/-- Status message shown before strategy 4. -/
def msgStep4 : String := "🔄 Trying audio-only fallback..."

/-- Strategy 4 of `download_video_to_memory` (the last resort): build the
audio-only options, announce, attempt; any raised error becomes the final
`(False, [], error_msg)` result. -/
def dvtmStep4 (extract : Extractor) (url : String) (options : Opts)
    (evs : List DlEvent) : DlResult × List DlEvent :=
  match step4build options with
  | Except.error e4 => ((false, [], some (failMsg e4)), evs)
  | Except.ok o4 =>
    match attempt_download extract url o4 with
    | Except.ok r =>
      (r, evs ++ [DlEvent.notify msgStep4, DlEvent.attempt 4 o4 (Except.ok r)])
    | Except.error e4 =>
      ((false, [], some (failMsg e4)),
       evs ++ [DlEvent.notify msgStep4, DlEvent.attempt 4 o4 (Except.error e4)])

/-- Strategy 3 of `download_video_to_memory`: build the minimal mobile
options, announce, attempt; any raised error is warned about and the
ladder falls through to strategy 4. -/
def dvtmStep3 (extract : Extractor) (url : String) (options : Opts)
    (evs : List DlEvent) : DlResult × List DlEvent :=
  match step3build options with
  | Except.error e3 =>
    dvtmStep4 extract url options
      (evs ++ [DlEvent.warn (truncMsg "Mobile mode failed: " e3)])
  | Except.ok o3 =>
    match attempt_download extract url o3 with
    | Except.ok r =>
      (r, evs ++ [DlEvent.notify msgStep3, DlEvent.attempt 3 o3 (Except.ok r)])
    | Except.error e3 =>
      dvtmStep4 extract url options
        (evs ++ [DlEvent.notify msgStep3, DlEvent.attempt 3 o3 (Except.error e3),
                 DlEvent.warn (truncMsg "Mobile mode failed: " e3)])

/-- Strategy 2 of `download_video_to_memory`: build the simplified-format
options, announce, attempt; any raised error is warned about and the
ladder falls through to strategy 3. -/
def dvtmStep2 (extract : Extractor) (url : String) (options : Opts)
    (evs : List DlEvent) : DlResult × List DlEvent :=
  match step2build options with
  | Except.error e2 =>
    dvtmStep3 extract url options
      (evs ++ [DlEvent.warn (truncMsg "Alternative method failed: " e2)])
  | Except.ok o2 =>
    match attempt_download extract url o2 with
    | Except.ok r =>
      (r, evs ++ [DlEvent.notify msgStep2, DlEvent.attempt 2 o2 (Except.ok r)])
    | Except.error e2 =>
      dvtmStep3 extract url options
        (evs ++ [DlEvent.notify msgStep2, DlEvent.attempt 2 o2 (Except.error e2),
                 DlEvent.warn (truncMsg "Alternative method failed: " e2)])

/-- `download_video_to_memory(url, options)`: try the primary options; on
a raised error warn and fall through the fixed ladder of strategies
2, 3, 4.  Returns the `(success, files, error)` triple together with the
trace of helper invocations and streamlit status events. -/
def download_video_to_memory (extract : Extractor) (url : String)
    (options : Opts) : DlResult × List DlEvent :=
  match attempt_download extract url options with
  | Except.ok r => (r, [DlEvent.attempt 1 options (Except.ok r)])
  | Except.error e1 =>
    dvtmStep2 extract url options
      [DlEvent.attempt 1 options (Except.error e1),
       DlEvent.warn (truncMsg "Primary download method failed: " e1)]

/-- The helper invocations of a trace: step number and outcome of every
`attempt` event, in order. -/
def attemptsOf (evs : List DlEvent) : List (Nat × Except String DlResult) :=
  evs.filterMap (fun e =>
    match e with
    | DlEvent.attempt k _ out => some (k, out)
    | _ => none)

/-- The options handed to the helper at a given step, for every `attempt`
event of a trace. -/
def attemptOptsOf (evs : List DlEvent) : List (Nat × Opts) :=
  evs.filterMap (fun e =>
    match e with
    | DlEvent.attempt k o _ => some (k, o)
    | _ => none)

/-- `true` on a success outcome. -/
def isOkOutcome (out : Except String DlResult) : Bool :=
  match out with
  | Except.ok _ => true
  | Except.error _ => false

/-! ## The web Option Builder: `create_download_options` -/

/-- The four desktop user agents rotated through by
`create_download_options` (one is picked by `random.choice`; the pick is a
parameter of the model). -/
def userAgentPool : List String :=
  ["Mozilla/5.0 (Windows NT 10.0; Win64; x64) AppleWebKit/537.36 (KHTML, like Gecko) Chrome/120.0.0.0 Safari/537.36",
   "Mozilla/5.0 (Macintosh; Intel Mac OS X 10_15_7) AppleWebKit/537.36 (KHTML, like Gecko) Chrome/120.0.0.0 Safari/537.36",
   "Mozilla/5.0 (X11; Linux x86_64) AppleWebKit/537.36 (KHTML, like Gecko) Chrome/120.0.0.0 Safari/537.36",
   "Mozilla/5.0 (Windows NT 10.0; Win64; x64; rv:120.0) Gecko/20100101 Firefox/120.0"]

/-- `os.path.join(os.getcwd(), "Downloads")` followed by
`os.path.join(output_dir, "%(title)s [%(id)s].%(ext)s")`; the working
directory is a parameter. -/
def webOuttmpl (cwd : String) : String :=
  cwd ++ "/Downloads/" ++ "%(title)s [%(id)s].%(ext)s"

/-- The `ydl_opts` literal of `create_download_options`, before the
audio/video format branch and the subtitle branch. -/
def webBaseOpts (cwd ua : String) : Opts :=
  [("outtmpl", OptVal.str (webOuttmpl cwd)),
   ("ignoreerrors", OptVal.bool true),
   ("no_warnings", OptVal.bool false),
   ("extractflat", OptVal.bool false),
   ("user_agent", OptVal.str ua),
   ("referer", OptVal.str "https://www.youtube.com/"),
   ("sleep_interval", OptVal.int 2),
   ("max_sleep_interval", OptVal.int 8),
   ("retries", OptVal.int 5),
   ("fragment_retries", OptVal.int 5),
   ("skip_unavailable_fragments", OptVal.bool true),
   ("abort_on_unavailable_fragment", OptVal.bool false),
   ("extractor_retries", OptVal.int 5),
   ("file_access_retries", OptVal.int 5),
   ("http_chunk_size", OptVal.int 10485760),
   ("http_headers",
    OptVal.dict
      [("Accept", "text/html,application/xhtml+xml,application/xml;q=0.9,*/*;q=0.8"),
       ("Accept-Language", "en-us,en;q=0.5"),
       ("Accept-Encoding", "gzip, deflate"),
       ("DNT", "1"),
       ("Connection", "keep-alive"),
       ("Upgrade-Insecure-Requests", "1")]),
   ("embed_subs", OptVal.bool true),
   ("writesubtitles", OptVal.bool false),
   ("writeautomaticsub", OptVal.bool false)]

/-- The audio-only `ydl_opts.update({...})` of `create_download_options`:
a fixed audio-preferring format and a single `FFmpegExtractAudio`
postprocessor with hard-coded codec `mp3` and quality `192`. -/
def webAudioUpdate : List (String × OptVal) :=
  [("format", OptVal.str "bestaudio[ext=m4a]/bestaudio[ext=mp3]/bestaudio/best"),
   ("postprocessors",
    OptVal.ppList
      [[("key", "FFmpegExtractAudio"),
        ("preferredcodec", "mp3"),
        ("preferredquality", "192")]])]

/-- The audio/video format branch of `create_download_options`.  Python
truthiness: an empty `custom_format` string falls through to the quality
table. -/
def webFormatStage (o : Opts) (quality : String) (audio_only : Bool)
    (custom_format : Option String) : Opts :=
  if audio_only then updateKeys o webAudioUpdate
  else if custom_format.getD "" ≠ "" then
    setKey "format" (OptVal.str (custom_format.getD "")) o
  else if quality = "4K" then
    setKey "format" (OptVal.str "bestvideo[height<=2160]+bestaudio/best[height<=2160]/best") o
  else if quality = "1440p" then
    setKey "format" (OptVal.str "bestvideo[height<=1440]+bestaudio/best[height<=1440]/best") o
  else if quality = "1080p" then
    setKey "format" (OptVal.str "bestvideo[height<=1080]+bestaudio/best[height<=1080]/best") o
  else if quality = "720p" then
    setKey "format" (OptVal.str "bestvideo[height<=720]+bestaudio/best[height<=720]/best") o
  else if quality = "480p" then
    setKey "format" (OptVal.str "bestvideo[height<=480]+bestaudio/best[height<=480]/best") o
  else
    setKey "format" (OptVal.str "bestvideo[height<=1080]+bestaudio/best[height<=1080]/bestvideo+bestaudio/best") o

/-- The subtitle branch of `create_download_options`.  Python truthiness:
`None` and the empty language list both skip the update. -/
def webSubsStage (o : Opts) (subtitle_langs : Option (List String)) : Opts :=
  match subtitle_langs with
  | some (l0 :: ls) =>
    updateKeys o
      [("writesubtitles", OptVal.bool true),
       ("subtitleslangs", OptVal.strList (l0 :: ls)),
       ("writeautomaticsub", OptVal.bool true)]
  | _ => o

/-- `create_download_options(quality, audio_only, subtitle_langs,
custom_format)` from `streamlit_app.py`; `cwd` is the process working
directory and `ua` the user agent picked by `random.choice`. -/
def create_download_options (cwd ua quality : String) (audio_only : Bool)
    (subtitle_langs : Option (List String)) (custom_format : Option String) :
    Opts :=
  webSubsStage (webFormatStage (webBaseOpts cwd ua) quality audio_only custom_format)
    subtitle_langs

/-- The Audio Only page handler (`streamlit_app.py` lines 725-729): it
calls `create_download_options(audio_only=True, subtitle_langs=None)` and
never passes the `audio_format` the user selected in the sidebar. -/
def audioPageOptions (cwd ua audio_format : String) : Opts :=
  create_download_options cwd ua "best" true none none

/-! ## The CLI: `youtube_downloader.py` -/

/-- The parsed argparse namespace of `youtube_downloader.py`, with the
argparse defaults documented per field. -/
structure Args where
  /-- positional `urls` (default `[]`). -/
  urls : List String := []
  /-- `--batch-file` (short `-a`) (default `None`). -/
  batch_file : Option String := none
  /-- `--output-dir` (short `-o`) (default `os.path.join(os.getcwd(), "Downloads")`). -/
  output_dir : String := "Downloads"
  /-- `--template` (short `-t`). -/
  template : String := "%(title)s [%(id)s].%(ext)s"
  /-- `--format` (short `-f`). -/
  format : String := "bestvideo*+bestaudio/best"
  /-- `--merge-format` (short `-m`). -/
  merge_format : String := "mp4"
  /-- `--audio-only` (short `-A`) (default `None`). -/
  audio_format : Option String := none
  /-- `--audio-quality`. -/
  audio_quality : String := "0"
  /-- `--subtitles`. -/
  subtitles : Bool := false
  /-- `--sub-langs`. -/
  sub_langs : List String := ["en"]
  /-- `--auto-subs`. -/
  auto_subs : Bool := false
  /-- `--embed-metadata`. -/
  embed_metadata : Bool := false
  /-- `--embed-thumbnail`. -/
  embed_thumbnail : Bool := false
  /-- `--embed-subs`. -/
  embed_subs : Bool := false
  /-- `--write-thumbnail`. -/
  write_thumbnail : Bool := false
  /-- `--cookies` (default `None`). -/
  cookies : Option String := none
  /-- `--proxy` (default `None`). -/
  proxy : Option String := none
  /-- `--rate-limit` (default `None`). -/
  rate_limit : Option String := none
  /-- `--retries`. -/
  retries : Int := 10
  /-- `--fragment-retries`. -/
  fragment_retries : Int := 10
  /-- `--concurrent-fragments`. -/
  concurrent_fragments : Int := 5
  /-- `--no-check-certificate`. -/
  no_check_certificate : Bool := false
  /-- `--download-archive` (default `None`). -/
  download_archive : Option String := none
  /-- `--no-playlist`. -/
  no_playlist : Bool := false
  /-- `--yes-playlist`. -/
  yes_playlist : Bool := false
  /-- `--quiet` (short `-q`). -/
  quiet : Bool := false
  /-- `--verbose` (short `-v`). -/
  verbose : Bool := false

/-- Python truthiness of an optional string (`if args.cookies:` etc.):
`None` and the empty string are falsy. -/
def truthyStr (s : Option String) : Bool :=
  match s with
  | some v => v ≠ ""
  | none => false

/-- The filesystem, as an oracle mapping a path to the lines of the file
(without trailing newlines). -/
abbrev FileSys := String → List String

/-- `read_urls_from_file(path)`: strip each line, drop blanks and `#`
comments. -/
def read_urls_from_file (fs : FileSys) (path : String) : List String :=
  ((fs path).map (fun l => strTrim l)).filter
    (fun l => l ≠ "" && !(strStartsWith l "#"))

/-- The deduplication loop of `collect_urls`: `seen` is the set of urls
already kept (as a list). -/
def dedupLoop (seen : List String) : List String → List String
  | [] => []
  | u :: rest =>
    if u ∈ seen then dedupLoop seen rest
    else u :: dedupLoop (u :: seen) rest

/-- The url list before deduplication: batch-file urls (when a batch file
was given), then the positional urls. -/
def rawUrls (fs : FileSys) (args : Args) : List String :=
  (match args.batch_file with
   | some p => read_urls_from_file fs p
   | none => []) ++ args.urls

/-- `collect_urls(args)`: batch-file urls, then positional urls,
deduplicated keeping the first occurrence of each. -/
def collect_urls (fs : FileSys) (args : Args) : List String :=
  dedupLoop [] (rawUrls fs args)

/-- Keep the first occurrence of every element, in first-occurrence
order: the reference shape of order-preserving deduplication. -/
def keepFirst : List String → List String
  | [] => []
  | u :: rest => u :: keepFirst (rest.filter (fun x => x ≠ u))
termination_by l => l.length
decreasing_by
  simp only [List.length_cons, Nat.lt_succ_iff]
  exact List.length_filter_le _ _

/-- `os.path.abspath(os.path.expanduser(...))`: environment-dependent path
normalization delegated to the OS; modelled as the identity, since no
verified property depends on the path value. -/
def absExpand (s : String) : String := s

/-- Append one postprocessor:
`ydl_opts.setdefault("postprocessors", []).append(pp)`. -/
def appendPP (o : Opts) (pp : PPDict) : Opts :=
  match lookupKey "postprocessors" o with
  | some (OptVal.ppList l) => setKey "postprocessors" (OptVal.ppList (l ++ [pp])) o
  | some _ => o
  | none => setKey "postprocessors" (OptVal.ppList [pp]) o

/-- Set a key only when a flag holds. -/
def setIf (c : Bool) (k : String) (v : OptVal) (o : Opts) : Opts :=
  if c then setKey k v o else o

/-- The `ydl_opts` of `make_ydl_opts` before the audio/video format
branch: the base dict literal followed by the conditional single-key
assignments, in source order. -/
def ydlBaseOpts (args : Args) : Opts :=
  let o : Opts :=
    [("outtmpl", OptVal.str (absExpand args.output_dir ++ "/" ++ args.template)),
     ("ignoreerrors", OptVal.bool true),
     ("noplaylist", OptVal.bool (args.no_playlist && !args.yes_playlist)),
     ("skip_unavailable_fragments", OptVal.bool true),
     ("retries", OptVal.int args.retries),
     ("fragment_retries", OptVal.int args.fragment_retries),
     ("concurrent_fragment_downloads", OptVal.int args.concurrent_fragments),
     ("continuedl", OptVal.bool true),
     ("merge_output_format", OptVal.str args.merge_format)]
  let o := if args.verbose then setKey "verbose" (OptVal.bool true) o
           else if args.quiet then setKey "quiet" (OptVal.bool true) o
           else o
  let o := setIf (truthyStr args.rate_limit) "ratelimit"
             (OptVal.str (args.rate_limit.getD "")) o
  let o := setIf (truthyStr args.cookies) "cookiefile"
             (OptVal.str (args.cookies.getD "")) o
  let o := setIf (truthyStr args.proxy) "proxy" (OptVal.str (args.proxy.getD "")) o
  let o := setIf (truthyStr args.download_archive) "download_archive"
             (OptVal.str (args.download_archive.getD "")) o
  let o := setIf args.no_check_certificate "nocheckcertificate" (OptVal.bool true) o
  let o :=
    if args.subtitles then
      let o := setKey "writesubtitles" (OptVal.bool true) o
      let o := setKey "subtitleslangs" (OptVal.strList args.sub_langs) o
      setIf args.auto_subs "writeautomaticsub" (OptVal.bool true) o
    else o
  let o := setIf args.embed_subs "embedsubtitles" (OptVal.bool true) o
  let o := setIf args.write_thumbnail "writethumbnail" (OptVal.bool true) o
  let o := setIf args.embed_thumbnail "embedthumbnail" (OptVal.bool true) o
  setIf args.embed_metadata "addmetadata" (OptVal.bool true) o

/-- `make_ydl_opts(args)` from `youtube_downloader.py`. -/
def make_ydl_opts (args : Args) : Opts :=
  let o := ydlBaseOpts args
  if truthyStr args.audio_format then
    let o := setKey "format" (OptVal.str "bestaudio/best") o
    let o := appendPP o
      [("key", "FFmpegExtractAudio"),
       ("preferredcodec", args.audio_format.getD ""),
       ("preferredquality", args.audio_quality)]
    if args.embed_thumbnail then
      appendPP o [("key", "FFmpegThumbnailsConvertor"), ("format", "jpg")]
    else o
  else
    setKey "format" (OptVal.str args.format) o

/-- Outcome of the external `ydl.download(urls)` call: a returned value
(`None` when not an int), a raised `yt_dlp.utils.DownloadError`, or any
other raised exception. -/
inductive YdlOutcome where
  | ret (code : Option Int)
  | dlErr (msg : String)
  | otherErr (msg : String)

/-- The external batch download primitive, as an oracle over the options
and the url list. -/
abbrev Downloader := Opts → List String → YdlOutcome

/-- `download(urls, ydl_opts)`: 2 when the url list is empty; otherwise 1
if the call raises or returns a non-zero int, 0 if it returns 0 or a
non-int.  The boolean records whether the external primitive was
invoked. -/
def download (dl : Downloader) (urls : List String) (ydl_opts : Opts) :
    Int × Bool :=
  if urls = [] then (2, false)
  else
    match dl ydl_opts urls with
    | YdlOutcome.ret (some c) => (if c = 0 then 0 else 1, true)
    | YdlOutcome.ret none => (0, true)
    | YdlOutcome.dlErr _ => (1, true)
    | YdlOutcome.otherErr _ => (1, true)

/-- `main(argv)`: collect the urls; exit 2 immediately when none resolve
(the download stage is never invoked); otherwise build the options and
run `download`.  The boolean records whether the external download
primitive was invoked. -/
def cliMain (fs : FileSys) (dl : Downloader) (args : Args) : Int × Bool :=
  let urls := collect_urls fs args
  if urls = [] then (2, false)
  else download dl urls (make_ydl_opts args)

/-! ## Structure of a ladder run -/

theorem attemptsOf_append (l1 l2 : List DlEvent) :
    attemptsOf (l1 ++ l2) = attemptsOf l1 ++ attemptsOf l2 := by
  simp [attemptsOf]

theorem attemptsOf_nil : attemptsOf [] = [] := rfl

theorem attemptsOf_notify_cons (m : String) (l : List DlEvent) :
    attemptsOf (DlEvent.notify m :: l) = attemptsOf l := rfl

theorem attemptsOf_warn_cons (m : String) (l : List DlEvent) :
    attemptsOf (DlEvent.warn m :: l) = attemptsOf l := rfl

theorem attemptsOf_attempt_cons (k : Nat) (o : Opts) (out : Except String DlResult)
    (l : List DlEvent) :
    attemptsOf (DlEvent.attempt k o out :: l) = (k, out) :: attemptsOf l := rfl

/-- Shape of a ladder suffix run: the produced events extend `evs` by a
tail whose attempted step numbers are an ordered selection of `allowed`;
all attempts except possibly the last raise; the run's result is the last
attempt's success when there is one and a `(False, [], error)` triple
otherwise. -/
def LadderTail (p : DlResult × List DlEvent) (evs : List DlEvent)
    (allowed : List Nat) : Prop :=
  ∃ tail errs,
    p.2 = evs ++ tail ∧
    ((attemptsOf tail).map Prod.fst).Sublist allowed ∧
    (∀ a ∈ errs, isOkOutcome a.2 = false) ∧
    ((attemptsOf tail = errs ∧ ∃ msg, p.1 = (false, [], some msg)) ∨
     (∃ k r, attemptsOf tail = errs ++ [(k, Except.ok r)] ∧ p.1 = r))

theorem dvtmStep4_ladder (extract : Extractor) (url : String) (options : Opts)
    (evs : List DlEvent) : LadderTail (dvtmStep4 extract url options evs) evs [4] := by
  unfold LadderTail
  cases h4b : step4build options with
  | error e4 =>
    simp only [dvtmStep4, h4b]
    exact ⟨[], [], by simp, by simp [attemptsOf], by simp,
      Or.inl ⟨by simp [attemptsOf], failMsg e4, rfl⟩⟩
  | ok o4 =>
    cases h4 : attempt_download extract url o4 with
    | ok r =>
      simp only [dvtmStep4, h4b, h4]
      exact ⟨[DlEvent.notify msgStep4, DlEvent.attempt 4 o4 (Except.ok r)], [],
        rfl, by simp [attemptsOf], by simp,
        Or.inr ⟨4, r, by simp [attemptsOf], rfl⟩⟩
    | error e4 =>
      simp only [dvtmStep4, h4b, h4]
      exact ⟨[DlEvent.notify msgStep4, DlEvent.attempt 4 o4 (Except.error e4)],
        [(4, Except.error e4)], rfl, by simp [attemptsOf],
        by simp [isOkOutcome],
        Or.inl ⟨by simp [attemptsOf], failMsg e4, rfl⟩⟩

theorem dvtmStep3_ladder (extract : Extractor) (url : String) (options : Opts)
    (evs : List DlEvent) : LadderTail (dvtmStep3 extract url options evs) evs [3, 4] := by
  have hsub : [4].Sublist [3, 4] := by decide
  cases h3b : step3build options with
  | error e3 =>
    obtain ⟨tail4, errs4, hev, hsteps, herrs, hres⟩ :=
      dvtmStep4_ladder extract url options
        (evs ++ [DlEvent.warn (truncMsg "Mobile mode failed: " e3)])
    unfold LadderTail
    simp only [dvtmStep3, h3b]
    refine ⟨DlEvent.warn (truncMsg "Mobile mode failed: " e3) :: tail4, errs4,
      by simpa using hev, ?_, herrs, ?_⟩
    · simpa [attemptsOf] using hsteps.trans hsub
    · simpa [attemptsOf] using hres
  | ok o3 =>
    cases h3 : attempt_download extract url o3 with
    | ok r =>
      unfold LadderTail
      simp only [dvtmStep3, h3b, h3]
      exact ⟨[DlEvent.notify msgStep3, DlEvent.attempt 3 o3 (Except.ok r)], [],
        rfl, by simp [attemptsOf], by simp,
        Or.inr ⟨3, r, by simp [attemptsOf], rfl⟩⟩
    | error e3 =>
      obtain ⟨tail4, errs4, hev, hsteps, herrs, hres⟩ :=
        dvtmStep4_ladder extract url options
          (evs ++ [DlEvent.notify msgStep3, DlEvent.attempt 3 o3 (Except.error e3),
                   DlEvent.warn (truncMsg "Mobile mode failed: " e3)])
      unfold LadderTail
      simp only [dvtmStep3, h3b, h3]
      refine ⟨DlEvent.notify msgStep3 :: DlEvent.attempt 3 o3 (Except.error e3) ::
          DlEvent.warn (truncMsg "Mobile mode failed: " e3) :: tail4,
        (3, Except.error e3) :: errs4, by simpa using hev, ?_, ?_, ?_⟩
      · simp only [attemptsOf_notify_cons, attemptsOf_attempt_cons, attemptsOf_warn_cons,
          List.map_cons]
        exact List.Sublist.cons₂ 3 hsteps
      · intro a ha
        rcases List.mem_cons.mp ha with h | h
        · subst h; simp [isOkOutcome]
        · exact herrs a h
      · rcases hres with ⟨hats, hfail⟩ | ⟨k, r, hats, hr⟩
        · exact Or.inl ⟨by simp [attemptsOf] at hats ⊢; simp [hats], hfail⟩
        · exact Or.inr ⟨k, r, by simp [attemptsOf] at hats ⊢; simp [hats], hr⟩

theorem dvtmStep2_ladder (extract : Extractor) (url : String) (options : Opts)
    (evs : List DlEvent) : LadderTail (dvtmStep2 extract url options evs) evs [2, 3, 4] := by
  have hsub : [3, 4].Sublist [2, 3, 4] := by decide
  cases h2b : step2build options with
  | error e2 =>
    obtain ⟨tail3, errs3, hev, hsteps, herrs, hres⟩ :=
      dvtmStep3_ladder extract url options
        (evs ++ [DlEvent.warn (truncMsg "Alternative method failed: " e2)])
    unfold LadderTail
    simp only [dvtmStep2, h2b]
    refine ⟨DlEvent.warn (truncMsg "Alternative method failed: " e2) :: tail3, errs3,
      by simpa using hev, ?_, herrs, ?_⟩
    · simpa [attemptsOf] using hsteps.trans hsub
    · simpa [attemptsOf] using hres
  | ok o2 =>
    cases h2 : attempt_download extract url o2 with
    | ok r =>
      unfold LadderTail
      simp only [dvtmStep2, h2b, h2]
      exact ⟨[DlEvent.notify msgStep2, DlEvent.attempt 2 o2 (Except.ok r)], [],
        rfl, by simp [attemptsOf], by simp,
        Or.inr ⟨2, r, by simp [attemptsOf], rfl⟩⟩
    | error e2 =>
      obtain ⟨tail3, errs3, hev, hsteps, herrs, hres⟩ :=
        dvtmStep3_ladder extract url options
          (evs ++ [DlEvent.notify msgStep2, DlEvent.attempt 2 o2 (Except.error e2),
                   DlEvent.warn (truncMsg "Alternative method failed: " e2)])
      unfold LadderTail
      simp only [dvtmStep2, h2b, h2]
      refine ⟨DlEvent.notify msgStep2 :: DlEvent.attempt 2 o2 (Except.error e2) ::
          DlEvent.warn (truncMsg "Alternative method failed: " e2) :: tail3,
        (2, Except.error e2) :: errs3, by simpa using hev, ?_, ?_, ?_⟩
      · simp only [attemptsOf_notify_cons, attemptsOf_attempt_cons, attemptsOf_warn_cons,
          List.map_cons]
        exact List.Sublist.cons₂ 2 hsteps
      · intro a ha
        rcases List.mem_cons.mp ha with h | h
        · subst h; simp [isOkOutcome]
        · exact herrs a h
      · rcases hres with ⟨hats, hfail⟩ | ⟨k, r, hats, hr⟩
        · exact Or.inl ⟨by simp [attemptsOf] at hats ⊢; simp [hats], hfail⟩
        · exact Or.inr ⟨k, r, by simp [attemptsOf] at hats ⊢; simp [hats], hr⟩

/-- A list all of whose elements but possibly the last fail a predicate
satisfies the predicate at most once. -/
theorem countP_le_one_of_head_errs {α : Type} (p : α → Bool) (errs : List α)
    (last : List α) (h : ∀ a ∈ errs, p a = false) (hl : last.length ≤ 1) :
    (errs ++ last).countP p ≤ 1 := by
  have herrs : errs.countP p = 0 := by
    rw [List.countP_eq_zero]
    intro a ha
    simp [h a ha]
  have hlast : last.countP p ≤ 1 := le_trans (List.countP_le_length p) hl
  simp [List.countP_append, herrs, hlast]

/-- C1: for every url, primary configuration and extractor behaviour, a
`download_video_to_memory` run invokes the `_attempt_download` helper for
an in-order selection of the fixed steps 1, 2, 3, 4 (each at most once,
never reordered); every invocation except possibly the last one raises;
if the last invocation succeeds its value alone is the function's result
(no merging across steps), otherwise the result is a single failure
triple; in particular at most one invocation succeeds. -/
theorem ladder_first_success_terminates (extract : Extractor) (url : String)
    (options : Opts) :
    ∃ errs,
      (((attemptsOf (download_video_to_memory extract url options).2).map Prod.fst).Sublist
        [1, 2, 3, 4]) ∧
      (∀ a ∈ errs, isOkOutcome a.2 = false) ∧
      ((attemptsOf (download_video_to_memory extract url options).2 = errs ∧
        ∃ msg, (download_video_to_memory extract url options).1 = (false, [], some msg)) ∨
       (∃ k r, attemptsOf (download_video_to_memory extract url options).2 =
          errs ++ [(k, Except.ok r)] ∧
        (download_video_to_memory extract url options).1 = r)) ∧
      (attemptsOf (download_video_to_memory extract url options).2).countP
        (fun a => isOkOutcome a.2) ≤ 1 := by
  cases h1 : attempt_download extract url options with
  | ok r =>
    simp only [download_video_to_memory, h1]
    refine ⟨[], ?_, by simp, Or.inr ⟨1, r, by
      simp [attemptsOf_attempt_cons, attemptsOf_nil], rfl⟩, ?_⟩
    · simp only [attemptsOf_attempt_cons, attemptsOf_nil, List.map_cons, List.map_nil]
      decide
    · simp only [attemptsOf_attempt_cons, attemptsOf_nil, List.countP_cons,
        List.countP_nil, isOkOutcome]
      split <;> simp
  | error e1 =>
    obtain ⟨tail, errs, hev, hsteps, herrs, hres⟩ :=
      dvtmStep2_ladder extract url options
        [DlEvent.attempt 1 options (Except.error e1),
         DlEvent.warn (truncMsg "Primary download method failed: " e1)]
    simp only [download_video_to_memory, h1]
    have hats : attemptsOf (dvtmStep2 extract url options
        [DlEvent.attempt 1 options (Except.error e1),
         DlEvent.warn (truncMsg "Primary download method failed: " e1)]).2 =
        (1, Except.error e1) :: attemptsOf tail := by
      rw [hev, attemptsOf_append, attemptsOf_attempt_cons, attemptsOf_warn_cons]
      rfl
    refine ⟨(1, Except.error e1) :: errs, ?_, ?_, ?_, ?_⟩
    · rw [hats]
      exact List.Sublist.cons₂ 1 (hsteps.trans (by decide))
    · intro a ha
      rcases List.mem_cons.mp ha with h | h
      · subst h; simp [isOkOutcome]
      · exact herrs a h
    · rcases hres with ⟨ht, hfail⟩ | ⟨k, r, ht, hr⟩
      · exact Or.inl ⟨by rw [hats, ht], hfail⟩
      · exact Or.inr ⟨k, r, by rw [hats, ht]; rfl, hr⟩
    · rw [hats]
      rcases hres with ⟨ht, hfail⟩ | ⟨k, r, ht, hr⟩
      · have : ((1, Except.error (α := DlResult) e1) :: attemptsOf tail) =
            ((1, Except.error e1) :: errs) ++ [] := by simp [ht]
        rw [this]
        refine countP_le_one_of_head_errs _ _ _ ?_ (by simp)
        intro a ha
        rcases List.mem_cons.mp ha with h | h
        · subst h; simp [isOkOutcome]
        · exact herrs a h
      · have : ((1, Except.error (α := DlResult) e1) :: attemptsOf tail) =
            ((1, Except.error e1) :: errs) ++ [(k, Except.ok r)] := by simp [ht]
        rw [this]
        refine countP_le_one_of_head_errs _ _ _ ?_ (by simp)
        intro a ha
        rcases List.mem_cons.mp ha with h | h
        · subst h; simp [isOkOutcome]
        · exact herrs a h

/-! ## Status notifications (C8) -/

/-- The status message announcing step `k` (only steps 2, 3, 4 have one). -/
def stepMsg (k : Nat) : String :=
  if k = 2 then msgStep2 else if k = 3 then msgStep3 else msgStep4

/-- Trace checker: walking the event list with the previous event in hand,
every helper invocation for a step other than 1 is immediately preceded by
the status notification of that step, and a step-1 invocation only occurs
as the very first event of the run (so in particular no notification ever
precedes step 1). -/
def notifyDiscipline : List DlEvent → Option DlEvent → Bool
  | [], _ => true
  | DlEvent.attempt k o out :: rest, prev =>
    (if k = 1 then
       (match prev with
        | none => true
        | some _ => false)
     else
       (match prev with
        | some (DlEvent.notify m) => m = stepMsg k
        | _ => false))
    && notifyDiscipline rest (some (DlEvent.attempt k o out))
  | e :: rest, _ => notifyDiscipline rest (some e)

/-- C8: in every ladder run, each of steps 2, 3 and 4, whenever its helper
invocation happens, is immediately preceded in the event trace by its own
status notification, and the step-1 invocation is always the very first
event (hence no notification is emitted before step 1).  Notifications are
pure trace output: the result component of `download_video_to_memory` is
built without reference to them. -/
theorem ladder_notify_before_steps (extract : Extractor) (url : String)
    (options : Opts) :
    notifyDiscipline (download_video_to_memory extract url options).2 none = true := by
  unfold download_video_to_memory dvtmStep2 dvtmStep3 dvtmStep4
  repeat' split
  all_goals simp [notifyDiscipline, stepMsg, msgStep2, msgStep3, msgStep4]

/-! ## Lookups into the web Option Builder output -/

theorem webFormatStage_lookup_ne (o : Opts) (q : String) (ao : Bool)
    (cf : Option String) (k : String) (hk1 : k ≠ "format")
    (hk2 : k ≠ "postprocessors") :
    lookupKey k (webFormatStage o q ao cf) = lookupKey k o := by
  have h1 : ("format" : String) ≠ k := Ne.symm hk1
  unfold webFormatStage
  split
  · refine lookupKey_updateKeys_notMem o webAudioUpdate k ?_
    intro kv hkv
    rcases List.mem_cons.mp hkv with h | h
    · subst h; exact Ne.symm hk1
    · rcases List.mem_cons.mp h with h' | h'
      · subst h'; exact Ne.symm hk2
      · simp at h'
  · split
    · exact lookupKey_setKey_ne _ _ _ _ h1
    · split
      · exact lookupKey_setKey_ne _ _ _ _ h1
      · split
        · exact lookupKey_setKey_ne _ _ _ _ h1
        · split
          · exact lookupKey_setKey_ne _ _ _ _ h1
          · split
            · exact lookupKey_setKey_ne _ _ _ _ h1
            · split
              · exact lookupKey_setKey_ne _ _ _ _ h1
              · exact lookupKey_setKey_ne _ _ _ _ h1

theorem webSubsStage_lookup_ne (o : Opts) (subs : Option (List String))
    (k : String) (hk1 : k ≠ "writesubtitles") (hk2 : k ≠ "subtitleslangs")
    (hk3 : k ≠ "writeautomaticsub") :
    lookupKey k (webSubsStage o subs) = lookupKey k o := by
  unfold webSubsStage
  split
  · refine lookupKey_updateKeys_notMem o _ k ?_
    intro kv hkv
    rcases List.mem_cons.mp hkv with h | h
    · subst h; exact Ne.symm hk1
    · rcases List.mem_cons.mp h with h' | h'
      · subst h'; exact Ne.symm hk2
      · rcases List.mem_cons.mp h' with h'' | h''
        · subst h''; exact Ne.symm hk3
        · simp at h''
  · rfl

theorem cdo_lookup_outtmpl (cwd ua q : String) (ao : Bool)
    (subs : Option (List String)) (cf : Option String) :
    lookupKey "outtmpl" (create_download_options cwd ua q ao subs cf) =
      some (OptVal.str (webOuttmpl cwd)) := by
  unfold create_download_options
  rw [webSubsStage_lookup_ne _ _ _ (by decide) (by decide) (by decide),
    webFormatStage_lookup_ne _ _ _ _ _ (by decide) (by decide)]
  simp [webBaseOpts, lookupKey]

theorem webFormatStage_format_isStr (o : Opts) (q : String) (ao : Bool)
    (cf : Option String) :
    ∃ f, lookupKey "format" (webFormatStage o q ao cf) = some (OptVal.str f) := by
  unfold webFormatStage
  split
  · refine ⟨"bestaudio[ext=m4a]/bestaudio[ext=mp3]/bestaudio/best", ?_⟩
    show lookupKey "format"
      (setKey "postprocessors" _ (setKey "format" _ o)) = _
    rw [lookupKey_setKey_ne _ _ _ _ (by decide), lookupKey_setKey_eq]
  · repeat' split
    all_goals exact ⟨_, lookupKey_setKey_eq _ _ _⟩

theorem cdo_format_isStr (cwd ua q : String) (ao : Bool)
    (subs : Option (List String)) (cf : Option String) :
    ∃ f, lookupKey "format" (create_download_options cwd ua q ao subs cf) =
      some (OptVal.str f) := by
  obtain ⟨f, hf⟩ := webFormatStage_format_isStr (webBaseOpts cwd ua) q ao cf
  refine ⟨f, ?_⟩
  unfold create_download_options
  rw [webSubsStage_lookup_ne _ _ _ (by decide) (by decide) (by decide), hf]

/-! ## Total failure of the ladder (C2) -/

/-- Core of C2, for any primary options carrying an output template and a
string format value: when the extractor raises on every call, all four
helper invocations happen in order and the final result is the failure
triple built from the fourth invocation's error. -/
theorem ladder_all_raise_core (extract : Extractor) (url : String)
    (options : Opts) (f : String)
    (hf : lookupKey "format" options = some (OptVal.str f))
    (v : OptVal) (hv : lookupKey "outtmpl" options = some v)
    (hfail : ∀ o : Opts, ∃ m, extract url o = Except.error m) :
    ((attemptsOf (download_video_to_memory extract url options).2).map Prod.fst
        = [1, 2, 3, 4]) ∧
    (∃ o4 m4,
      step4build options = Except.ok o4 ∧
      extract url (tempOptions o4) = Except.error m4 ∧
      (download_video_to_memory extract url options).1 =
        (false, [], some (failMsg m4))) := by
  obtain ⟨m1, hm1⟩ := hfail (tempOptions options)
  have h1 : attempt_download extract url options = Except.error m1 := by
    unfold attempt_download
    rw [hm1]
    rfl
  have h2b : step2build options = Except.ok
      (setKey "format"
        (OptVal.str (if strContainsChar f '+' then "best[height<=720]" else "best"))
        options) := by
    unfold step2build
    rw [hf]
    rfl
  obtain ⟨m2, hm2⟩ := hfail (tempOptions (setKey "format"
    (OptVal.str (if strContainsChar f '+' then "best[height<=720]" else "best")) options))
  have h2 : attempt_download extract url (setKey "format"
      (OptVal.str (if strContainsChar f '+' then "best[height<=720]" else "best"))
      options) = Except.error m2 := by
    unfold attempt_download
    rw [hm2]
    rfl
  have h3b : step3build options = Except.ok
      [("outtmpl", v),
       ("format", OptVal.str "best[height<=480]/best"),
       ("user_agent", OptVal.str mobileUA),
       ("referer", OptVal.str "https://m.youtube.com/"),
       ("retries", OptVal.int 3),
       ("sleep_interval", OptVal.int 5)] := by
    unfold step3build
    rw [hv]
  obtain ⟨m3, hm3⟩ := hfail (tempOptions
    [("outtmpl", v),
     ("format", OptVal.str "best[height<=480]/best"),
     ("user_agent", OptVal.str mobileUA),
     ("referer", OptVal.str "https://m.youtube.com/"),
     ("retries", OptVal.int 3),
     ("sleep_interval", OptVal.int 5)])
  have h3 : attempt_download extract url
      [("outtmpl", v),
       ("format", OptVal.str "best[height<=480]/best"),
       ("user_agent", OptVal.str mobileUA),
       ("referer", OptVal.str "https://m.youtube.com/"),
       ("retries", OptVal.int 3),
       ("sleep_interval", OptVal.int 5)] = Except.error m3 := by
    unfold attempt_download
    rw [hm3]
    rfl
  have h4b : step4build options = Except.ok
      [("outtmpl", v),
       ("format", OptVal.str "bestaudio/best"),
       ("user_agent", OptVal.str botUA),
       ("sleep_interval", OptVal.int 3)] := by
    unfold step4build
    rw [hv]
  obtain ⟨m4, hm4⟩ := hfail (tempOptions
    [("outtmpl", v),
     ("format", OptVal.str "bestaudio/best"),
     ("user_agent", OptVal.str botUA),
     ("sleep_interval", OptVal.int 3)])
  have h4 : attempt_download extract url
      [("outtmpl", v),
       ("format", OptVal.str "bestaudio/best"),
       ("user_agent", OptVal.str botUA),
       ("sleep_interval", OptVal.int 3)] = Except.error m4 := by
    unfold attempt_download
    rw [hm4]
    rfl
  constructor
  · simp only [download_video_to_memory, h1, dvtmStep2, h2b, h2, dvtmStep3, h3b,
      h3, dvtmStep4, h4b, h4]
    simp [attemptsOf_attempt_cons, attemptsOf_warn_cons, attemptsOf_notify_cons,
      attemptsOf_nil, attemptsOf_append]
  · refine ⟨_, m4, h4b, hm4, ?_⟩
    simp only [download_video_to_memory, h1, dvtmStep2, h2b, h2, dvtmStep3, h3b,
      h3, dvtmStep4, h4b, h4]

/-- C2: for every url and every primary configuration produced by the web
Option Builder, if the extraction primitive raises on every call then the
ladder invokes the `_attempt_download` helper exactly four times (steps
1, 2, 3, 4 in order) and returns the failure triple whose message is
derived from the fourth (last) attempt's error. -/
theorem ladder_all_raise_four_attempts (extract : Extractor)
    (url cwd ua q : String) (ao : Bool) (subs : Option (List String))
    (cf : Option String)
    (hfail : ∀ o : Opts, ∃ m, extract url o = Except.error m) :
    ((attemptsOf (download_video_to_memory extract url
        (create_download_options cwd ua q ao subs cf)).2).map Prod.fst
        = [1, 2, 3, 4]) ∧
    (∃ o4 m4,
      step4build (create_download_options cwd ua q ao subs cf) = Except.ok o4 ∧
      extract url (tempOptions o4) = Except.error m4 ∧
      (download_video_to_memory extract url
          (create_download_options cwd ua q ao subs cf)).1 =
        (false, [], some (failMsg m4))) := by
  obtain ⟨f, hf⟩ := cdo_format_isStr cwd ua q ao subs cf
  exact ladder_all_raise_core extract url _ f hf _
    (cdo_lookup_outtmpl cwd ua q ao subs cf) hfail

/-- An extractor that always raises. -/
def alwaysRaise : Extractor := fun _ _ => Except.error "boom"

/-- Witness for C2 at a concrete input: with an always-raising extractor
and a concrete Option Builder configuration, all four steps are
attempted. -/
theorem ladder_all_raise_four_attempts_witness :
    (attemptsOf (download_video_to_memory alwaysRaise "u"
        (create_download_options "/w" "UA" "1080p" false none none)).2).map Prod.fst
      = [1, 2, 3, 4] :=
  (ladder_all_raise_four_attempts alwaysRaise "u" "/w" "UA" "1080p" false none none
    (fun _ => ⟨"boom", rfl⟩)).1

/-- Witness for C1 at a concrete input: an always-raising extractor run
satisfies the at-most-one-success bound. -/
theorem ladder_first_success_terminates_witness :
    (attemptsOf (download_video_to_memory alwaysRaise "u"
        (create_download_options "/w" "UA" "1080p" false none none)).2).countP
      (fun a => isOkOutcome a.2) ≤ 1 :=
  (ladder_first_success_terminates alwaysRaise "u"
    (create_download_options "/w" "UA" "1080p" false none none)).choose_spec.2.2.2

/-! ## Zero matching files (C3) -/

/-- An extractor that completes without raising but leaves no file in the
scratch directory. -/
def emptyScratchExtractor : Extractor :=
  fun _ _ => Except.ok ⟨some ⟨some "T"⟩, []⟩

/-- A small primary configuration with an output template and a combined
format selector. -/
def primaryOpts0 : Opts :=
  [("outtmpl", OptVal.str "T"), ("format", OptVal.str "bestvideo+bestaudio/best")]

/-- C3 counterexample: when the extractor completes without raising on
step 1 but the scratch scan finds zero files with a recognized media
extension, `download_video_to_memory` returns `(True, [], None)` — a
success with an empty file list — after the single step-1 invocation; the
step is not turned into a Failure and the ladder does not proceed to step
2, contradicting the claim. -/
theorem zero_files_success_counterexample :
    download_video_to_memory emptyScratchExtractor "u" primaryOpts0 =
      ((true, [], none),
       [DlEvent.attempt 1 primaryOpts0 (Except.ok (true, [], none))]) := rfl

/-- C3 amended: a step whose extractor call completes without raising but
whose scratch scan matches zero files is reported as a Success with an
empty file list, and the ladder terminates at that step (here step 1): no
later step is attempted and the zero-file case is not converted into a
per-step Failure. -/
theorem zero_files_reported_success (extract : Extractor) (url : String)
    (options : Opts) (res : ExtractResult)
    (hok : extract url (tempOptions options) = Except.ok res)
    (hempty : res.files.filter (fun f => hasMediaExt f.name) = []) :
    download_video_to_memory extract url options =
      ((true, [], none),
       [DlEvent.attempt 1 options (Except.ok (true, [], none))]) := by
  have h1 : attempt_download extract url options = Except.ok (true, [], none) := by
    unfold attempt_download
    rw [hok]
    simp [Except.map, materialize, hempty]
  simp [download_video_to_memory, h1]

/-- Witness for the amended C3 at a concrete input. -/
theorem zero_files_reported_success_witness :
    download_video_to_memory emptyScratchExtractor "url2" primaryOpts0 =
      ((true, [], none),
       [DlEvent.attempt 1 primaryOpts0 (Except.ok (true, [], none))]) :=
  zero_files_reported_success emptyScratchExtractor "url2" primaryOpts0
    ⟨some ⟨some "T"⟩, []⟩ rfl rfl

/-! ## Step 2 derivation (C4) -/

/-- C4: the step-2 configuration is the primary configuration copied with
only the `format` key replaced — by the single 720p-capped selector when
the primary format string contains the `+` combination marker, by the
unconstrained `best` selector otherwise; every other key of the primary
configuration (subtitles, postprocessors, ...) is carried over
unchanged. -/
theorem step2_simplified_format (options : Opts) (f : String)
    (hf : lookupKey "format" options = some (OptVal.str f)) :
    ∃ o2, step2build options = Except.ok o2 ∧
      (strContainsChar f '+' = true →
        lookupKey "format" o2 = some (OptVal.str "best[height<=720]")) ∧
      (strContainsChar f '+' = false →
        lookupKey "format" o2 = some (OptVal.str "best")) ∧
      (∀ k, k ≠ "format" → lookupKey k o2 = lookupKey k options) := by
  refine ⟨setKey "format"
    (OptVal.str (if strContainsChar f '+' then "best[height<=720]" else "best")) options,
    ?_, ?_, ?_, ?_⟩
  · unfold step2build
    rw [hf]
    rfl
  · intro h
    simp [h, lookupKey_setKey_eq]
  · intro h
    simp [h, lookupKey_setKey_eq]
  · intro k hk
    exact lookupKey_setKey_ne _ _ _ _ (Ne.symm hk)

/-- The step-2 configuration derived from `primaryOpts0` (whose format
selector contains a `+`). -/
def step2W : Opts :=
  setKey "format" (OptVal.str "best[height<=720]") primaryOpts0

/-- Witness for C4 at a concrete input: the combined selector of
`primaryOpts0` is replaced by the 720p-capped single selector and the
output template is untouched. -/
theorem step2_simplified_format_witness :
    step2build primaryOpts0 = Except.ok step2W ∧
    lookupKey "format" step2W = some (OptVal.str "best[height<=720]") ∧
    lookupKey "outtmpl" step2W = lookupKey "outtmpl" primaryOpts0 := by
  have hW : step2build primaryOpts0 = Except.ok step2W := rfl
  obtain ⟨o2, h1, h2, _, h4⟩ :=
    step2_simplified_format primaryOpts0 "bestvideo+bestaudio/best" rfl
  have ho : o2 = step2W := by
    rw [hW] at h1
    exact (Except.ok.injEq _ _).mp h1.symm
  exact ⟨hW, ho ▸ h2 (by decide), ho ▸ h4 "outtmpl" (by decide)⟩

/-! ## Step 3 mobile configuration (C5) -/

theorem cdo_lookup_untouched (cwd ua q : String) (ao : Bool)
    (subs : Option (List String)) (cf : Option String) (k : String)
    (h1 : k ≠ "format") (h2 : k ≠ "postprocessors")
    (h3 : k ≠ "writesubtitles") (h4 : k ≠ "subtitleslangs")
    (h5 : k ≠ "writeautomaticsub") :
    lookupKey k (create_download_options cwd ua q ao subs cf) =
      lookupKey k (webBaseOpts cwd ua) := by
  unfold create_download_options
  rw [webSubsStage_lookup_ne _ _ _ h3 h4 h5, webFormatStage_lookup_ne _ _ _ _ _ h1 h2]

theorem cdo_lookup_retries (cwd ua q : String) (ao : Bool)
    (subs : Option (List String)) (cf : Option String) :
    lookupKey "retries" (create_download_options cwd ua q ao subs cf) =
      some (OptVal.int 5) := by
  rw [cdo_lookup_untouched cwd ua q ao subs cf _ (by decide) (by decide) (by decide)
    (by decide) (by decide)]
  simp [webBaseOpts, lookupKey]

theorem cdo_lookup_sleep (cwd ua q : String) (ao : Bool)
    (subs : Option (List String)) (cf : Option String) :
    lookupKey "sleep_interval" (create_download_options cwd ua q ao subs cf) =
      some (OptVal.int 2) := by
  rw [cdo_lookup_untouched cwd ua q ao subs cf _ (by decide) (by decide) (by decide)
    (by decide) (by decide)]
  simp [webBaseOpts, lookupKey]

/-- The step-3 configuration built from an Option Builder primary
configuration (its `outtmpl` entry is the one copied from the primary). -/
def step3Of (cwd : String) : Opts :=
  [("outtmpl", OptVal.str (webOuttmpl cwd)),
   ("format", OptVal.str "best[height<=480]/best"),
   ("user_agent", OptVal.str mobileUA),
   ("referer", OptVal.str "https://m.youtube.com/"),
   ("retries", OptVal.int 3),
   ("sleep_interval", OptVal.int 5)]

/-- C5 counterexample: the claim says that besides the five fields it
names (format, user agent, referrer, retries, sleep interval) no field of
the primary configuration is carried into step 3 — but the step-3
configuration copies the primary's `outtmpl` value verbatim.  Stated as
the negation of the claim's carry-over clause at a concrete primary
configuration. -/
theorem step3_carries_outtmpl_counterexample :
    ¬ (∀ k : String, k ≠ "format" → k ≠ "user_agent" → k ≠ "referer" →
        k ≠ "retries" → k ≠ "sleep_interval" →
        ∀ o3, step3build (create_download_options "/w" "UA" "1080p" false none none) =
            Except.ok o3 →
          lookupKey k o3 = none ∨
          lookupKey k o3 ≠
            lookupKey k (create_download_options "/w" "UA" "1080p" false none none)) := by
  intro h
  have hb : step3build (create_download_options "/w" "UA" "1080p" false none none) =
      Except.ok (step3Of "/w") := rfl
  rcases h "outtmpl" (by decide) (by decide) (by decide) (by decide) (by decide)
      (step3Of "/w") hb with h' | h'
  · exact absurd h' (by decide)
  · exact h' (by decide)

/-- C5 amended: step 3 replaces the primary configuration by a minimal
six-key configuration — format selector preferring at most 480p (with an
uncapped `best` last resort), a mobile-device user agent, the mobile-site
referrer, retry count 3 (reduced from the primary's 5) and sleep interval
5 (longer than the primary's 2) — and the only field carried over from
the primary configuration is its output template `outtmpl`; no key beyond
these six is present. -/
theorem step3_mobile_minimal (cwd ua q : String) (ao : Bool)
    (subs : Option (List String)) (cf : Option String) :
    step3build (create_download_options cwd ua q ao subs cf) =
      Except.ok (step3Of cwd) ∧
    lookupKey "format" (step3Of cwd) = some (OptVal.str "best[height<=480]/best") ∧
    lookupKey "user_agent" (step3Of cwd) = some (OptVal.str mobileUA) ∧
    lookupKey "referer" (step3Of cwd) = some (OptVal.str "https://m.youtube.com/") ∧
    lookupKey "retries" (step3Of cwd) = some (OptVal.int 3) ∧
    lookupKey "retries" (create_download_options cwd ua q ao subs cf) =
      some (OptVal.int 5) ∧
    (3 : Int) < 5 ∧
    lookupKey "sleep_interval" (step3Of cwd) = some (OptVal.int 5) ∧
    lookupKey "sleep_interval" (create_download_options cwd ua q ao subs cf) =
      some (OptVal.int 2) ∧
    (2 : Int) < 5 ∧
    lookupKey "outtmpl" (step3Of cwd) =
      lookupKey "outtmpl" (create_download_options cwd ua q ao subs cf) ∧
    (∀ k : String,
      k ∉ (["outtmpl", "format", "user_agent", "referer", "retries",
            "sleep_interval"] : List String) →
      lookupKey k (step3Of cwd) = none) := by
  refine ⟨?_, by simp [step3Of, lookupKey], by simp [step3Of, lookupKey],
    by simp [step3Of, lookupKey], by simp [step3Of, lookupKey],
    cdo_lookup_retries cwd ua q ao subs cf, by norm_num,
    by simp [step3Of, lookupKey], cdo_lookup_sleep cwd ua q ao subs cf,
    by norm_num, ?_, ?_⟩
  · unfold step3build
    rw [cdo_lookup_outtmpl cwd ua q ao subs cf]
    rfl
  · rw [cdo_lookup_outtmpl cwd ua q ao subs cf]
    simp [step3Of, lookupKey]
  · intro k hk
    simp only [List.mem_cons, List.mem_singleton, not_or] at hk
    obtain ⟨h1, h2, h3, h4, h5, h6, -⟩ := hk
    simp [step3Of, lookupKey, Ne.symm h1, Ne.symm h2, Ne.symm h3, Ne.symm h4,
      Ne.symm h5, Ne.symm h6]

/-- Witness for C5 at a concrete primary configuration. -/
theorem step3_mobile_minimal_witness :
    step3build (create_download_options "/w2" "UA2" "720p" false none none) =
      Except.ok (step3Of "/w2") :=
  (step3_mobile_minimal "/w2" "UA2" "720p" false none none).1

/-! ## Materialized files of a successful step (C6) -/

/-- C6: when the extractor completes without raising, the helper returns
a success whose file list is exactly the media-extension-matching scratch
files, in listing order; each returned record carries the scratch
filename, its full raw bytes, the byte count as its size, the filename
suffix as its extension and the extractor-reported title (defaulting to
"Unknown" when the metadata is absent); files without a recognized media
extension are never included. -/
theorem attempt_download_materializes (extract : Extractor) (url : String)
    (options : Opts) (res : ExtractResult)
    (hok : extract url (tempOptions options) = Except.ok res) :
    attempt_download extract url options =
      Except.ok (true, materialize res, none) ∧
    (∀ df ∈ materialize res, ∃ sf ∈ res.files,
      hasMediaExt sf.name = true ∧
      df.name = sf.name ∧ df.data = sf.data ∧ df.size = sf.data.length ∧
      df.ext = splitextExt sf.name ∧ df.title = titleOf res.info) ∧
    (∀ sf ∈ res.files, hasMediaExt sf.name = true →
      mkDownloadedFile res.info sf ∈ materialize res) ∧
    (∀ df ∈ materialize res, hasMediaExt df.name = true) := by
  refine ⟨?_, ?_, ?_, ?_⟩
  · unfold attempt_download
    rw [hok]
    rfl
  · intro df hdf
    obtain ⟨sf, hsf, hmk⟩ := List.mem_map.mp hdf
    obtain ⟨hsfmem, hsfext⟩ := List.mem_filter.mp hsf
    exact ⟨sf, hsfmem, hsfext, by simp [← hmk, mkDownloadedFile]⟩
  · intro sf hsf hext
    exact List.mem_map_of_mem _ (List.mem_filter.mpr ⟨hsf, hext⟩)
  · intro df hdf
    obtain ⟨sf, hsf, hmk⟩ := List.mem_map.mp hdf
    obtain ⟨-, hsfext⟩ := List.mem_filter.mp hsf
    rw [← hmk]
    exact hsfext

/-- An extractor producing one media file and one non-media file. -/
def twoFileExtractor : Extractor :=
  fun _ _ => Except.ok
    ⟨some ⟨some "My Title"⟩,
     [⟨"video.mp4", [10, 20, 30]⟩, ⟨"notes.txt", [7]⟩]⟩

/-- Witness for C6 at a concrete input: `video.mp4` with 3 bytes comes
back with name `video.mp4`, size 3 and extension `.mp4`; `notes.txt` is
ignored. -/
theorem attempt_download_materializes_witness :
    attempt_download twoFileExtractor "u" primaryOpts0 =
      Except.ok
        (true,
         [{ name := "video.mp4", data := [10, 20, 30], size := 3,
            title := "My Title", ext := ".mp4" }],
         none) :=
  (attempt_download_materializes twoFileExtractor "u" primaryOpts0
    ⟨some ⟨some "My Title"⟩,
     [⟨"video.mp4", [10, 20, 30]⟩, ⟨"notes.txt", [7]⟩]⟩ rfl).1

/-! ## Audio-only option building (C7) -/

/-- Lookup in a postprocessor dictionary. -/
def lookupStr (k : String) : PPDict → Option String
  | [] => none
  | (k0, v) :: rest => if k0 = k then some v else lookupStr k rest

/-- The audio-transcode descriptors of a configuration: the entries of its
`postprocessors` list whose `key` is `FFmpegExtractAudio`. -/
def audioTranscodePPs (o : Opts) : List PPDict :=
  match lookupKey "postprocessors" o with
  | some (OptVal.ppList l) =>
    l.filter (fun pp => lookupStr "key" pp = some "FFmpegExtractAudio")
  | _ => []

theorem lookupKey_setIf_ne (c : Bool) (k : String) (v : OptVal) (o : Opts)
    (k' : String) (h : k ≠ k') :
    lookupKey k' (setIf c k v o) = lookupKey k' o := by
  unfold setIf
  split
  · exact lookupKey_setKey_ne _ _ _ _ h
  · rfl

theorem ydlBaseOpts_no_pps (args : Args) :
    lookupKey "postprocessors" (ydlBaseOpts args) = none := by
  unfold ydlBaseOpts
  simp [lookupKey_setIf_ne, lookupKey_setKey_ne,
    apply_ite (lookupKey "postprocessors"), lookupKey]

theorem lookupKey_appendPP_ne (o : Opts) (pp : PPDict) (k : String)
    (h : k ≠ "postprocessors") :
    lookupKey k (appendPP o pp) = lookupKey k o := by
  unfold appendPP
  rcases hl : lookupKey "postprocessors" o with - | v
  · exact lookupKey_setKey_ne _ _ _ _ (Ne.symm h)
  · cases v <;> first
      | rfl
      | exact lookupKey_setKey_ne _ _ _ _ (Ne.symm h)

/-- C7 counterexample: in the web app's Audio Only flow the user-requested
audio format (here `m4a`) never reaches the Option Builder; the produced
transcode descriptor's target codec is the hard-coded `mp3`, not the
requested codec. -/
theorem web_audio_codec_counterexample :
    ((audioTranscodePPs (audioPageOptions "/w" "UA" "m4a")).map
        (fun pp => lookupStr "preferredcodec" pp) = [some "mp3"]) ∧
    (some "mp3" : Option String) ≠ some "m4a" := by
  constructor
  · rfl
  · decide

/-- C7 amended: for every audio-only request, both Option Builders emit a
format selector whose first alternative targets audio-only streams and a
postprocessor list containing exactly one audio-transcode descriptor; the
CLI builder's descriptor carries the user-requested codec, while the web
builder's descriptor always requests codec `mp3`, ignoring the user's
audio-format selection. -/
theorem audio_only_transcode_descriptor (cwd ua af : String) (args : Args)
    (c : String) (hc : args.audio_format = some c) (hcne : c ≠ "") :
    (lookupKey "format" (audioPageOptions cwd ua af) =
       some (OptVal.str "bestaudio[ext=m4a]/bestaudio[ext=mp3]/bestaudio/best") ∧
     strStartsWith "bestaudio[ext=m4a]/bestaudio[ext=mp3]/bestaudio/best"
       "bestaudio" = true ∧
     audioTranscodePPs (audioPageOptions cwd ua af) =
       [[("key", "FFmpegExtractAudio"), ("preferredcodec", "mp3"),
         ("preferredquality", "192")]]) ∧
    (lookupKey "format" (make_ydl_opts args) = some (OptVal.str "bestaudio/best") ∧
     strStartsWith "bestaudio/best" "bestaudio" = true ∧
     (audioTranscodePPs (make_ydl_opts args)).map
       (fun pp => lookupStr "preferredcodec" pp) = [some c] ∧
     (audioTranscodePPs (make_ydl_opts args)).length = 1) := by
  have htr : truthyStr args.audio_format = true := by simp [truthyStr, hc, hcne]
  have hpps := ydlBaseOpts_no_pps args
  have h1 : lookupKey "postprocessors"
      (setKey "format" (OptVal.str "bestaudio/best") (ydlBaseOpts args)) = none := by
    rw [lookupKey_setKey_ne _ _ _ _ (by decide)]
    exact hpps
  have h2 : appendPP (setKey "format" (OptVal.str "bestaudio/best") (ydlBaseOpts args))
      [("key", "FFmpegExtractAudio"),
       ("preferredcodec", args.audio_format.getD ""),
       ("preferredquality", args.audio_quality)] =
      setKey "postprocessors"
        (OptVal.ppList
          [[("key", "FFmpegExtractAudio"),
            ("preferredcodec", args.audio_format.getD ""),
            ("preferredquality", args.audio_quality)]])
        (setKey "format" (OptVal.str "bestaudio/best") (ydlBaseOpts args)) := by
    unfold appendPP
    rw [h1]
  have h3 : appendPP
      (setKey "postprocessors"
        (OptVal.ppList
          [[("key", "FFmpegExtractAudio"),
            ("preferredcodec", args.audio_format.getD ""),
            ("preferredquality", args.audio_quality)]])
        (setKey "format" (OptVal.str "bestaudio/best") (ydlBaseOpts args)))
      [("key", "FFmpegThumbnailsConvertor"), ("format", "jpg")] =
      setKey "postprocessors"
        (OptVal.ppList
          [[("key", "FFmpegExtractAudio"),
            ("preferredcodec", args.audio_format.getD ""),
            ("preferredquality", args.audio_quality)],
           [("key", "FFmpegThumbnailsConvertor"), ("format", "jpg")]])
        (setKey "postprocessors"
          (OptVal.ppList
            [[("key", "FFmpegExtractAudio"),
              ("preferredcodec", args.audio_format.getD ""),
              ("preferredquality", args.audio_quality)]])
          (setKey "format" (OptVal.str "bestaudio/best") (ydlBaseOpts args))) := by
    unfold appendPP
    rw [lookupKey_setKey_eq]
    rfl
  refine ⟨⟨?_, by decide, ?_⟩, ?_⟩
  · show lookupKey "format"
      (setKey "postprocessors" _ (setKey "format" _ (webBaseOpts cwd ua))) = _
    rw [lookupKey_setKey_ne _ _ _ _ (by decide), lookupKey_setKey_eq]
  · show audioTranscodePPs
      (setKey "postprocessors" _ (setKey "format" _ (webBaseOpts cwd ua))) = _
    unfold audioTranscodePPs
    rw [lookupKey_setKey_eq]
    rfl
  · unfold make_ydl_opts
    simp only [htr, if_true]
    cases het : args.embed_thumbnail with
    | true =>
      rw [if_pos rfl, h2, h3]
      refine ⟨?_, by decide, ?_, ?_⟩
      · rw [lookupKey_setKey_ne _ _ _ _ (by decide),
          lookupKey_setKey_ne _ _ _ _ (by decide), lookupKey_setKey_eq]
      · unfold audioTranscodePPs
        rw [lookupKey_setKey_eq]
        simp [lookupStr, hc]
      · unfold audioTranscodePPs
        rw [lookupKey_setKey_eq]
        simp [lookupStr]
    | false =>
      rw [if_neg (by decide), h2]
      refine ⟨?_, by decide, ?_, ?_⟩
      · rw [lookupKey_setKey_ne _ _ _ _ (by decide), lookupKey_setKey_eq]
      · unfold audioTranscodePPs
        rw [lookupKey_setKey_eq]
        simp [lookupStr, hc]
      · unfold audioTranscodePPs
        rw [lookupKey_setKey_eq]
        simp [lookupStr]

/-- Witness for the amended C7 at a concrete input: CLI arguments
requesting audio format `m4a`. -/
theorem audio_only_transcode_descriptor_witness :
    (audioTranscodePPs (make_ydl_opts { audio_format := some "m4a" })).map
      (fun pp => lookupStr "preferredcodec" pp) = [some "m4a"] :=
  (audio_only_transcode_descriptor "/w" "UA" "m4a" { audio_format := some "m4a" }
    "m4a" rfl (by decide)).2.2.2.1

/-! ## CLI exit codes (C9) -/

/-- C9: the CLI exits with code 2 when no urls are resolved — and in that
case the external download primitive is never invoked; with urls present
it exits 1 when the download call raises a `DownloadError` (or any other
exception) or returns a non-zero code, and 0 when the call returns 0. -/
theorem cli_exit_codes (fs : FileSys) (dl : Downloader) (args : Args) :
    (collect_urls fs args = [] → cliMain fs dl args = (2, false)) ∧
    (collect_urls fs args ≠ [] →
      ((∀ m, dl (make_ydl_opts args) (collect_urls fs args) = YdlOutcome.dlErr m →
          (cliMain fs dl args).1 = 1) ∧
       (∀ m, dl (make_ydl_opts args) (collect_urls fs args) = YdlOutcome.otherErr m →
          (cliMain fs dl args).1 = 1) ∧
       (dl (make_ydl_opts args) (collect_urls fs args) = YdlOutcome.ret (some 0) →
          (cliMain fs dl args).1 = 0) ∧
       (∀ c : Int, c ≠ 0 →
          dl (make_ydl_opts args) (collect_urls fs args) = YdlOutcome.ret (some c) →
          (cliMain fs dl args).1 = 1) ∧
       (cliMain fs dl args).2 = true)) := by
  constructor
  · intro h
    simp [cliMain, h]
  · intro h
    refine ⟨?_, ?_, ?_, ?_, ?_⟩
    · intro m hm
      simp [cliMain, download, h, hm]
    · intro m hm
      simp [cliMain, download, h, hm]
    · intro hm
      simp [cliMain, download, h, hm]
    · intro c hc hm
      simp [cliMain, download, h, hm, hc]
    · simp only [cliMain, download, if_neg h]
      cases hdl : dl (make_ydl_opts args) (collect_urls fs args) with
      | ret code => cases code <;> simp
      | dlErr m => simp
      | otherErr m => simp

/-- An empty filesystem. -/
def emptyFS : FileSys := fun _ => []

/-- A download primitive that always reports success. -/
def okDownloader : Downloader := fun _ _ => YdlOutcome.ret (some 0)

/-- Witness for C9 at a concrete input: no positional urls and no batch
file resolve to no urls; the CLI exits 2 without invoking the download
primitive. -/
theorem cli_exit_codes_witness :
    cliMain emptyFS okDownloader {} = (2, false) :=
  (cli_exit_codes emptyFS okDownloader {}).1 rfl

/-! ## URL collection and deduplication (C10) -/

theorem dedupLoop_keepFirst (l seen : List String) :
    dedupLoop seen l = keepFirst (l.filter (fun x => decide (x ∉ seen))) := by
  induction l generalizing seen with
  | nil => simp [dedupLoop, keepFirst]
  | cons u l ih =>
    by_cases hu : u ∈ seen
    · rw [dedupLoop, if_pos hu, ih]
      congr 1
      rw [List.filter_cons]
      simp [hu]
    · rw [dedupLoop, if_neg hu, ih]
      rw [List.filter_cons]
      simp only [hu, not_false_eq_true, decide_True, if_pos]
      rw [keepFirst]
      congr 1
      rw [List.filter_filter]
      congr 1
      apply List.filter_congr
      intro x hx
      simp [List.mem_cons, not_or, Bool.and_comm]

theorem keepFirst_sublist (l : List String) : (keepFirst l).Sublist l := by
  induction l using keepFirst.induct with
  | case1 => simp [keepFirst]
  | case2 u rest ih =>
    rw [keepFirst]
    exact List.Sublist.cons₂ u (ih.trans (List.filter_sublist _))

theorem mem_keepFirst (x : String) (l : List String) :
    x ∈ keepFirst l ↔ x ∈ l := by
  induction l using keepFirst.induct with
  | case1 => simp [keepFirst]
  | case2 u rest ih =>
    rw [keepFirst]
    constructor
    · intro h
      rcases List.mem_cons.mp h with h | h
      · simp [h]
      · have := List.mem_filter.mp (ih.mp h)
        simp [this.1]
    · intro h
      rcases List.mem_cons.mp h with h | h
      · simp [h]
      · by_cases hxu : x = u
        · simp [hxu]
        · exact List.mem_cons.mpr (Or.inr (ih.mpr
            (List.mem_filter.mpr ⟨h, by simp [hxu]⟩)))

theorem keepFirst_nodup (l : List String) : (keepFirst l).Nodup := by
  induction l using keepFirst.induct with
  | case1 => simp [keepFirst]
  | case2 u rest ih =>
    rw [keepFirst]
    refine List.nodup_cons.mpr ⟨?_, ih⟩
    intro hmem
    have := List.mem_filter.mp ((mem_keepFirst _ _).mp hmem)
    simp at this

/-- C10: `collect_urls` returns the batch-file urls followed by the
positional urls with duplicates removed: the result is exactly the
first-occurrence-preserving deduplication `keepFirst` of that
concatenation — an order-preserving duplicate-free sublist containing
exactly the urls of the concatenation. -/
theorem collect_urls_dedup (fs : FileSys) (args : Args) :
    collect_urls fs args = keepFirst (rawUrls fs args) ∧
    (collect_urls fs args).Sublist (rawUrls fs args) ∧
    (collect_urls fs args).Nodup ∧
    (∀ x, x ∈ collect_urls fs args ↔ x ∈ rawUrls fs args) := by
  have h1 : collect_urls fs args = keepFirst (rawUrls fs args) := by
    unfold collect_urls
    rw [dedupLoop_keepFirst]
    congr 1
    simp
  refine ⟨h1, ?_, ?_, ?_⟩
  · rw [h1]
    exact keepFirst_sublist _
  · rw [h1]
    exact keepFirst_nodup _
  · intro x
    rw [h1]
    exact mem_keepFirst _ _

/-- A filesystem holding one batch file with a comment, a blank line,
surrounding whitespace, and a duplicate. -/
def batchFS : FileSys :=
  fun p => if p = "urls.txt" then ["a", "# skip", "", " b ", "a"] else []

/-- CLI arguments naming the batch file plus two positional urls, one a
duplicate of a batch url. -/
def batchArgs : Args :=
  { urls := ["a", "c"], batch_file := some "urls.txt" }

/-- Witness for C10 at a concrete input: batch urls `[a, b, a]` (after
stripping and comment/blank removal) then positional `[a, c]` collapse to
`[a, b, c]`, which is duplicate-free. -/
theorem collect_urls_dedup_witness :
    collect_urls batchFS batchArgs = ["a", "b", "c"] ∧
    (collect_urls batchFS batchArgs).Nodup :=
  ⟨rfl, (collect_urls_dedup batchFS batchArgs).2.2.1⟩
